import Mathlib

/-
Shallow embedding of the chess actor system (Go sources: chess.go and its
two near-duplicate variants).  Pure data and the per-message step functions
of the two actors (piece actor `spawnPiece`, board coordinator `runBoard`)
are translated directly from the source; channels are abstracted to small
Nat identifiers, a one-shot reply channel to the value it would carry, and
a `panic` to an explicit `panicked` outcome.
-/

deriving instance DecidableEq for Except

/-- Model of the Go struct `coords` (`x, y int`, unbounded machine ints). -/
structure Coords where
  x : Int
  y : Int
deriving DecidableEq, Repr

/-- Model of `coords.String` (variant part_000 line 11, chess.go line 11):
panics (here: `none`) when a component is outside [0,7]; otherwise the
two-character form, letter `"ABCDEFGH"[c.x]` followed by digit `c.y+1`. -/
def coordsString (c : Coords) : Option String :=
  if c.x < 0 ∨ 7 < c.x ∨ c.y < 0 ∨ 7 < c.y then
    none
  else
    some (String.mk [Char.ofNat (65 + c.x.toNat), Char.ofNat (49 + c.y.toNat)])

/-- Total rendering used inside trace and panic messages, where the
  coordinates are in range in every reachable call. -/
def coordsShow (c : Coords) : String :=
  (coordsString c).getD "Illegal coordinates"

/-- Model of `fmt.ScanState.ReadRune` on a rune sequence: at end of input the
  error is discarded by `coords.Scan` and the rune is the zero value 0. -/
def readRune : List Char → Char × List Char
  | [] => (Char.ofNat 0, [])
  | ch :: rest => (ch, rest)

/-- Model of `coords.Scan` (variant part_000 lines 18-27): reads two runes,
rejects when `rx < 'A' || 'G' < rx || ry < '1' || '8' < ry` (exactly the
source's guard, including its upper bound `'G'`), otherwise stores
`int(rx - 'A')` and `int(ry - '1')`. -/
def coordsScan (s : String) : Except String Coords :=
  let r1 := readRune s.data
  let r2 := readRune r1.2
  let rx := r1.1
  let ry := r2.1
  if rx < 'A' ∨ 'G' < rx ∨ ry < '1' ∨ '8' < ry then
    .error ("Illegal chess coordinates: <" ++ String.mk [rx] ++ ", " ++ String.mk [ry] ++ ">")
  else
    .ok ⟨(rx.toNat : Int) - 65, (ry.toNat : Int) - 49⟩

/-- Model of `parseMoveOp`s result type `bopMovePiece` (from, to). -/
structure MoveOp where
  f : Coords
  t : Coords
deriving DecidableEq, Repr

/-- Model of `parseMoveOp` (part_000 lines 312-319): scan `from`, fail on
error, then scan `to`. -/
def parseMoveOp (fs ts : String) : Except String MoveOp :=
  match coordsScan fs with
  | .error e => .error e
  | .ok cf =>
    match coordsScan ts with
    | .error e => .error e
    | .ok ct => .ok ⟨cf, ct⟩

/-- Model of `pieceBareType` (PAWN..KING). -/
inductive PieceBareType where
  | pawn | knight | bishop | rook | queen | king
deriving DecidableEq, Repr

/-- Model of `pieceColor` (BLACK is the zero value, then WHITE). -/
inductive PieceColor where
  | black | white
deriving DecidableEq, Repr

/-- Model of `pieceType` (kind and color). -/
structure PieceType where
  t : PieceBareType
  c : PieceColor
deriving DecidableEq, Repr

/-- Model of `pieceType.String` (part_000 lines 52-88): the unicode chess
symbol for each (color, kind) pair.  Both Go switches cover every case, so
the trailing panic is unreachable and the function is total. -/
def pieceTypeString (pt : PieceType) : String :=
  match pt.c, pt.t with
  | .white, .pawn => "♙"
  | .white, .knight => "♘"
  | .white, .bishop => "♗"
  | .white, .rook => "♖"
  | .white, .queen => "♕"
  | .white, .king => "♔"
  | .black, .pawn => "♟"
  | .black, .knight => "♞"
  | .black, .bishop => "♝"
  | .black, .rook => "♜"
  | .black, .queen => "♛"
  | .black, .king => "♚"

/-- The private state of one piece actor (`spawnPiece` locals, part_000
lines 130-138): position `x, y` (zero-initialized ints), the registered
move-subscriber channel `movechan` (nil initially; channels are modelled by
Nat identifiers), and the piece type `pt` (zero value PAWN/BLACK). -/
structure PieceState where
  x : Int
  y : Int
  movechan : Option Nat
  pt : PieceType
deriving DecidableEq, Repr

/-- The Go zero values the `spawnPiece` locals start from. -/
def pieceInit : PieceState :=
  { x := 0, y := 0, movechan := none, pt := ⟨.pawn, .black⟩ }

/-- The `pop` message union (part_000 lines 91-106).  One-shot reply
channels are abstracted away (the reply value appears as an output);
`moveCallback` keeps its channel argument as an optional identifier since
a nil channel cancels the subscription. -/
inductive Pop where
  | getCoords
  | setCoords (x y : Int)
  | kill
  | moveCallback (m : Option Nat)
  | setType (pt : PieceType)
  | getType
deriving DecidableEq, Repr

/-- Observable effects of one `spawnPiece` loop iteration: values sent on
reply channels, notifications pushed to the subscriber, the close of the
kill acknowledgment channel, and the deferred close of `movechan`. -/
inductive PieceOutput where
  | coordsReply (x y : Int)
  | typeReply (pt : PieceType)
  | notify (x y : Int)
  | killAck
  | subClosed
deriving DecidableEq, Repr

/-- One iteration of the `spawnPiece` message loop (part_000 lines 139-163):
the next state (`none` when the goroutine returns) and the effects, in
order.  On `popKill` the actor closes the ack channel, returns, and the
deferred block closes `movechan` when one is registered. -/
def pieceStep (s : PieceState) : Pop → Option PieceState × List PieceOutput
  | .setCoords x y =>
      (some { s with x := x, y := y },
       match s.movechan with
       | some _ => [.notify x y]
       | none => [])
  | .getCoords => (some s, [.coordsReply s.x s.y])
  | .kill =>
      (none, .killAck :: (match s.movechan with
                          | some _ => [.subClosed]
                          | none => []))
  | .moveCallback m => (some { s with movechan := m }, [])
  | .setType pt => (some { s with pt := pt }, [])
  | .getType => (some s, [.typeReply s.pt])

/-- Run a sequence of messages through the piece actor, accumulating the
effects; processing stops when the actor returns. -/
def pieceRun (s : PieceState) : List Pop → Option PieceState × List PieceOutput
  | [] => (some s, [])
  | op :: rest =>
    match pieceStep s op with
    | (none, out) => (none, out)
    | (some s1, out) =>
      let r := pieceRun s1 rest
      (r.1, out ++ r.2)

/-- Go-map lookup on an association list (at most one binding per key in
every list the board builds). -/
def lookupA {α β : Type} [DecidableEq α] : List (α × β) → α → Option β
  | [], _ => none
  | kv :: rest, a => if kv.1 = a then some kv.2 else lookupA rest a

/-- Go-map insertion `m[k] = v`: replace the binding when the key is
present, else append. -/
def insertA {α β : Type} [DecidableEq α] : List (α × β) → α → β → List (α × β)
  | [], a, b => [(a, b)]
  | kv :: rest, a, b =>
    if kv.1 = a then (a, b) :: rest else kv :: insertA rest a b

/-- Go-map deletion `delete(m, k)`: drop the binding when present. -/
def eraseA {α β : Type} [DecidableEq α] : List (α × β) → α → List (α × β)
  | [], _ => []
  | kv :: rest, a => if kv.1 = a then rest else kv :: eraseA rest a

/-- A whole-system state: the board coordinator's `pieces` map from
coordinate to piece-actor handle (part_000 line 227), the states of the
live piece actors indexed by handle, and the counter producing fresh
handles for `addPiece`. -/
structure System where
  pieces : List (Coords × Nat)
  actors : List (Nat × PieceState)
  nextId : Nat
deriving DecidableEq, Repr

/-- The `bop` message union of variant part_000 (lines 111-127).  The
`ctrl` channel of `bopNewPiece` is the handle of the piece actor; the
reply channel of `bopGetAllPieces` is abstracted to the list of handles
the coordinator streams before closing it. -/
inductive Bop where
  | newPiece (c : Coords) (ctrl : Nat)
  | movePiece (f t : Coords)
  | getAllPieces
  | delPiece (p : Nat)
deriving DecidableEq, Repr

/-- Outcome of one `runBoard` loop iteration: `ok` with the next system
state, the handles streamed to a `bopGetAllPieces` reply channel (empty for
the other operations, the close of the channel being the end of the list),
and the `fmt.Printf` trace lines; `panicked` when the coordinator panics;
`stuck` when a nested query addresses an absent actor, where the real
program would block forever on an unanswered channel. -/
inductive StepResult where
  | ok (s : System) (enum : List Nat) (log : List String)
  | panicked (msg : String)
  | stuck
deriving DecidableEq, Repr

/-- Boolean discriminator for `StepResult.ok`. -/
def StepResult.isOk : StepResult → Bool
  | .ok _ _ _ => true
  | _ => false

/-- One iteration of the `runBoard` message loop of variant part_000
(lines 226-270).  `bopNewPiece` panics on an occupied square, otherwise
inserts and queries the piece's type for the trace; `bopMovePiece` panics
when `from` is unoccupied, otherwise deletes `from`, maps `to` to the same
handle and queries the type; `bopGetAllPieces` streams the map's values
and closes the channel; `bopDelPiece` asks the piece for its coordinates,
kills it (waiting for the ack), and deletes the map entry at the
coordinates the piece reported. -/
def boardStep (sys : System) : Bop → StepResult
  | .newPiece c ctrl =>
    match lookupA sys.pieces c with
    | some _ => .panicked ("A piece already exists on " ++ coordsShow c)
    | none =>
      match lookupA sys.actors ctrl with
      | none => .stuck
      | some st =>
        .ok { sys with pieces := insertA sys.pieces c ctrl } []
          ["New piece: " ++ pieceTypeString st.pt ++ " on " ++ coordsShow c]
  | .movePiece f t =>
    match lookupA sys.pieces f with
    | none => .panicked ("No piece at " ++ coordsShow f)
    | some p =>
      match lookupA sys.actors p with
      | none => .stuck
      | some st =>
        .ok { sys with pieces := insertA (eraseA sys.pieces f) t p } []
          ["Move: " ++ pieceTypeString st.pt ++ " from " ++ coordsShow f
            ++ " to " ++ coordsShow t]
  | .getAllPieces => .ok sys (sys.pieces.map Prod.snd) []
  | .delPiece p =>
    match lookupA sys.actors p with
    | none => .stuck
    | some st =>
      let xy : Coords := ⟨st.x, st.y⟩
      .ok { sys with
              pieces := eraseA sys.pieces xy,
              actors := eraseA sys.actors p } []
        ["Deleted piece from " ++ coordsShow xy]

/-- One `runBoard` iteration of the `bopSetPiece` variants (chess.go lines
176-183 and 461-468): the coordinator asks the piece for its coordinates
and writes `pieces[<-cc] = t.ctrl` with no occupancy check, then queries
the type and prints the trace with the message's own `t.coords`. -/
def boardStepSet (sys : System) (c : Coords) (ctrl : Nat) : StepResult :=
  match lookupA sys.actors ctrl with
  | none => .stuck
  | some st =>
    .ok { sys with pieces := insertA sys.pieces ⟨st.x, st.y⟩ ctrl } []
      ["New piece: " ++ pieceTypeString st.pt ++ " on " ++ coordsShow c]

/-- The empty system: no board entries, no actors. -/
def sysEmpty : System := ⟨[], [], 0⟩

/-- A system with two actors both believing they stand on A1, the first of
which is registered on the board at A1. -/
def sysTwoA1 : System :=
  ⟨[(⟨0, 0⟩, 1)],
   [(1, ⟨0, 0, none, ⟨.pawn, .white⟩⟩), (2, ⟨0, 0, none, ⟨.knight, .white⟩⟩)],
   3⟩

/-- Model of `addPiece` (part_000 lines 166-185): spawn a piece actor from
the zero state, send it `popSetType` and `popSetCoords` (no subscriber yet,
so no notification), register it with the board via `bopNewPiece`, then
register the relay channel via `popMoveCallback`.  A board panic surfaces
as an error of the surrounding run. -/
def addPiece (sys : System) (x y : Int) (pt : PieceType) : Except String System :=
  let pid := sys.nextId
  match pieceRun pieceInit [.setType pt, .setCoords x y] with
  | (some st, _) =>
    let sys1 : System :=
      { sys with actors := insertA sys.actors pid st, nextId := pid + 1 }
    match boardStep sys1 (.newPiece ⟨x, y⟩ pid) with
    | .ok sys2 _ _ =>
      match pieceStep st (.moveCallback (some pid)) with
      | (some st2, _) => .ok { sys2 with actors := insertA sys2.actors pid st2 }
      | (none, _) => .error "piece stopped"
    | .panicked m => .error m
    | .stuck => .error "stuck"
  | (none, _) => .error "piece stopped"

/-- Model of `addPawn` (part_000 lines 187-195): rank 1 for white, 6 for
black. -/
def addPawn (x : Int) (color : PieceColor) (sys : System) : Except String System :=
  addPiece sys x (if color = .white then 1 else 6) ⟨.pawn, color⟩

/-- Model of `baseline` (part_000 lines 197-202). -/
def baseline (color : PieceColor) : Int :=
  if color = .white then 0 else 7

/-- Model of `addKnight` (part_000 line 204). -/
def addKnight (x : Int) (color : PieceColor) (sys : System) : Except String System :=
  addPiece sys x (baseline color) ⟨.knight, color⟩

/-- Model of `addBishop` (part_000 line 208). -/
def addBishop (x : Int) (color : PieceColor) (sys : System) : Except String System :=
  addPiece sys x (baseline color) ⟨.bishop, color⟩

/-- Model of `addRook` (part_000 line 212). -/
def addRook (x : Int) (color : PieceColor) (sys : System) : Except String System :=
  addPiece sys x (baseline color) ⟨.rook, color⟩

/-- Model of `addQueen` (part_000 line 216): file 3. -/
def addQueen (color : PieceColor) (sys : System) : Except String System :=
  addPiece sys 3 (baseline color) ⟨.queen, color⟩

/-- Model of `addKing` (part_000 line 220): file 4. -/
def addKing (color : PieceColor) (sys : System) : Except String System :=
  addPiece sys 4 (baseline color) ⟨.king, color⟩

/-- Model of `initBoard1p` (part_000 lines 272-289): one side's 16 pieces. -/
def initBoard1p (sys : System) (color : PieceColor) : Except String System := do
  let s ← addPawn 0 color sys
  let s ← addPawn 1 color s
  let s ← addPawn 2 color s
  let s ← addPawn 3 color s
  let s ← addPawn 4 color s
  let s ← addPawn 5 color s
  let s ← addPawn 6 color s
  let s ← addPawn 7 color s
  let s ← addRook 0 color s
  let s ← addKnight 1 color s
  let s ← addBishop 2 color s
  let s ← addQueen color s
  let s ← addKing color s
  let s ← addBishop 5 color s
  let s ← addKnight 6 color s
  addRook 7 color s

/-- Model of `initBoard` (part_000 lines 292-295): the standard 32-piece
starting position. -/
def initBoard (sys : System) : Except String System := do
  let s ← initBoard1p sys .white
  initBoard1p s .black

/-- Model of `clearBoard` (part_000 lines 297-309): collect all handles
from `bopGetAllPieces` first, then send a `bopDelPiece` for each. -/
def clearBoard (sys : System) : Except String System :=
  match boardStep sys .getAllPieces with
  | .ok sys1 handles _ =>
    handles.foldlM (fun s p =>
      match boardStep s (.delPiece p) with
      | .ok s2 _ _ => Except.ok s2
      | .panicked m => Except.error m
      | .stuck => Except.error "stuck") sys1
  | .panicked m => .error m
  | .stuck => .error "stuck"

/-- The system produced by placing a single white pawn on D2 (file 3,
rank 1) with `addPiece` on the empty board. -/
def sysD2 : System :=
  ⟨[(⟨3, 1⟩, 0)], [(0, ⟨3, 1, some 0, ⟨.pawn, .white⟩⟩)], 1⟩

/-- The `main`-style scenario of the spec: initialize the standard
32-piece starting position on an empty board, then clear the board. -/
def initThenClear : Except String System := do
  let s ← initBoard sysEmpty
  clearBoard s

/-- Feed a list of board operations through `runBoard` one at a time;
`none` when an operation panics or deadlocks. -/
def execOps (sys : System) : List Bop → Option System
  | [] => some sys
  | op :: rest =>
    match boardStep sys op with
    | .ok s1 _ _ => execOps s1 rest
    | _ => none

/-- The side conditions of claim C9, checked against the evolving state:
only registrations and two-endpoint moves occur, every registration and
every move target an unoccupied square, every move leaves an occupied
square, and each step completes (its nested actor queries are answered). -/
def legalOpsB (sys : System) : List Bop → Bool
  | [] => true
  | op :: rest =>
    (match op with
     | .newPiece c _ => (lookupA sys.pieces c).isNone
     | .movePiece f t =>
       (lookupA sys.pieces f).isSome && (lookupA sys.pieces t).isNone
     | _ => false) &&
    (match boardStep sys op with
     | .ok s1 _ _ => legalOpsB s1 rest
     | _ => false)


-- Quick sanity examples (coordinates round-trip on files A..G).
example : coordsString ⟨3, 1⟩ = some "D2" := by decide
example : coordsScan "D2" = .ok ⟨3, 1⟩ := by decide
example : coordsScan "G8" = .ok ⟨6, 7⟩ := by decide
example : parseMoveOp "D2" "D4" = .ok ⟨⟨3, 1⟩, ⟨3, 3⟩⟩ := by decide

example : pieceRun pieceInit [.setType ⟨.pawn, .white⟩, .setCoords 3 1] =
    (some ⟨3, 1, none, ⟨.pawn, .white⟩⟩, []) := by decide

theorem lookupA_insertA_self {α β : Type} [DecidableEq α]
    (l : List (α × β)) (a : α) (b : β) : lookupA (insertA l a b) a = some b := by
  induction l with
  | nil => simp [insertA, lookupA]
  | cons kv rest ih =>
    by_cases h : kv.1 = a
    · simp [insertA, h, lookupA]
    · simp [insertA, h, lookupA, ih]

theorem lookupA_insertA_ne {α β : Type} [DecidableEq α]
    (l : List (α × β)) (a x : α) (b : β) (hne : x ≠ a) :
    lookupA (insertA l a b) x = lookupA l x := by
  have hax : ¬ a = x := fun h => hne h.symm
  induction l with
  | nil => simp [insertA, lookupA, hax]
  | cons kv rest ih =>
    by_cases h : kv.1 = a
    · have hkx : ¬ kv.1 = x := by rw [h]; exact hax
      simp [insertA, h, lookupA, hax, hkx]
    · simp only [insertA, h, if_false, lookupA]
      by_cases hx : kv.1 = x
      · simp [hx]
      · simp [hx, ih]

theorem lookupA_eraseA_ne {α β : Type} [DecidableEq α]
    (l : List (α × β)) (a x : α) (hne : x ≠ a) :
    lookupA (eraseA l a) x = lookupA l x := by
  induction l with
  | nil => simp [eraseA]
  | cons kv rest ih =>
    by_cases h : kv.1 = a
    · have hax : ¬ a = x := fun hh => hne hh.symm
      simp [eraseA, h, lookupA, hax]
    · simp only [eraseA, h, if_false, lookupA]
      by_cases hx : kv.1 = x
      · simp [hx]
      · simp [hx, ih]

theorem lookupA_eq_none_of_not_mem {α β : Type} [DecidableEq α]
    (l : List (α × β)) (a : α) (h : a ∉ l.map Prod.fst) : lookupA l a = none := by
  induction l with
  | nil => rfl
  | cons kv rest ih =>
    simp only [List.map_cons, List.mem_cons] at h
    push_neg at h
    have hk : ¬ kv.1 = a := fun hh => h.1 hh.symm
    simp [lookupA, hk, ih h.2]

theorem lookupA_eraseA_self {α β : Type} [DecidableEq α]
    (l : List (α × β)) (a : α) (hnd : (l.map Prod.fst).Nodup) :
    lookupA (eraseA l a) a = none := by
  induction l with
  | nil => rfl
  | cons kv rest ih =>
    simp only [List.map_cons, List.nodup_cons] at hnd
    by_cases h : kv.1 = a
    · rw [eraseA, if_pos h, ← h]
      exact lookupA_eq_none_of_not_mem rest kv.1 hnd.1
    · simp [eraseA, h, lookupA, ih hnd.2]

theorem eraseA_of_not_mem {α β : Type} [DecidableEq α]
    (l : List (α × β)) (a : α) (h : a ∉ l.map Prod.fst) : eraseA l a = l := by
  induction l with
  | nil => rfl
  | cons kv rest ih =>
    simp only [List.map_cons, List.mem_cons] at h
    push_neg at h
    have hk : ¬ kv.1 = a := fun hh => h.1 hh.symm
    simp [eraseA, hk, ih h.2]

theorem mem_keys_insertA {α β : Type} [DecidableEq α]
    (l : List (α × β)) (a x : α) (b : β)
    (h : x ∈ (insertA l a b).map Prod.fst) : x ∈ l.map Prod.fst ∨ x = a := by
  induction l with
  | nil =>
    simp [insertA] at h
    exact Or.inr h
  | cons kv rest ih =>
    by_cases hk : kv.1 = a
    · simp only [insertA, hk, if_true, List.map_cons, List.mem_cons] at h
      rcases h with h | h
      · exact Or.inr h
      · exact Or.inl (by simp [h])
    · simp only [insertA, hk, if_false, List.map_cons, List.mem_cons] at h
      rcases h with h | h
      · exact Or.inl (by simp [h])
      · rcases ih h with h1 | h1
        · exact Or.inl (by simp [h1])
        · exact Or.inr h1

theorem nodup_keys_insertA {α β : Type} [DecidableEq α]
    (l : List (α × β)) (a : α) (b : β) (hnd : (l.map Prod.fst).Nodup) :
    ((insertA l a b).map Prod.fst).Nodup := by
  induction l with
  | nil => simp [insertA]
  | cons kv rest ih =>
    simp only [List.map_cons, List.nodup_cons] at hnd
    by_cases hk : kv.1 = a
    · simp only [insertA, hk, if_true, List.map_cons, List.nodup_cons]
      exact ⟨hk ▸ hnd.1, hnd.2⟩
    · simp only [insertA, hk, if_false, List.map_cons, List.nodup_cons]
      refine ⟨fun hmem => ?_, ih hnd.2⟩
      rcases mem_keys_insertA rest a kv.1 b hmem with h1 | h1
      · exact hnd.1 h1
      · exact hk h1

theorem eraseA_sublist {α β : Type} [DecidableEq α]
    (l : List (α × β)) (a : α) : (eraseA l a).Sublist l := by
  induction l with
  | nil => exact List.Sublist.refl _
  | cons kv rest ih =>
    by_cases hk : kv.1 = a
    · rw [eraseA, if_pos hk]
      exact List.sublist_cons_self kv rest
    · rw [eraseA, if_neg hk]
      exact List.Sublist.cons₂ kv ih

theorem nodup_keys_eraseA {α β : Type} [DecidableEq α]
    (l : List (α × β)) (a : α) (hnd : (l.map Prod.fst).Nodup) :
    ((eraseA l a).map Prod.fst).Nodup :=
  hnd.sublist ((eraseA_sublist l a).map Prod.fst)

theorem not_mem_keys_of_lookupA_eq_none {α β : Type} [DecidableEq α]
    (l : List (α × β)) (a : α) (h : lookupA l a = none) : a ∉ l.map Prod.fst := by
  induction l with
  | nil => simp
  | cons kv rest ih =>
    by_cases hk : kv.1 = a
    · rw [lookupA, if_pos hk] at h
      exact absurd h (by simp)
    · rw [lookupA, if_neg hk] at h
      simp only [List.map_cons, List.mem_cons]
      push_neg
      exact ⟨fun hh => hk hh.symm, ih h⟩

/-- Claim C1: the spec asserts format-then-parse round-trips on all 64
squares.  The code does not: `coords.String` formats x = 7 as letter `H`
(its table is `"ABCDEFGH"` and its range check admits x = 7), but
`coords.Scan` rejects every first rune above `'G'`, so the whole H file
fails to round-trip.  Concretely (7,0) formats to "H1" and "H1" fails to
parse, while the neighbouring "G1" parses fine. -/
theorem scan_rejects_file_H :
    coordsString ⟨7, 0⟩ = some "H1" ∧
    coordsScan "H1" = .error "Illegal chess coordinates: <H, 1>" ∧
    coordsScan "G1" = .ok ⟨6, 0⟩ := by
  refine ⟨by decide, by decide, by decide⟩

/-- Counterexample to claim C2 as stated: issuing `bopMovePiece` from the
unoccupied square D2 is not reported to the caller as a recoverable error
after which the coordinator keeps running — `runBoard` panics with
"No piece at D2", killing the coordinator goroutine. -/
theorem move_from_empty_panics_cex :
    boardStep sysEmpty (.movePiece ⟨3, 1⟩ ⟨3, 3⟩) = .panicked "No piece at D2" ∧
    (boardStep sysEmpty (.movePiece ⟨3, 1⟩ ⟨3, 3⟩)).isOk = false := by
  refine ⟨by decide, by decide⟩

/-- Claim C2 amended: when the `from` square of a `bopMovePiece` has no
registered piece, the coordinator treats it as a fatal contract violation:
it panics with "No piece at ..." before touching the mapping (no `ok`
state is produced, so no entry is modified) and processes no further
operations. -/
theorem move_from_unoccupied_panics (sys : System) (f t : Coords)
    (h : lookupA sys.pieces f = none) :
    boardStep sys (.movePiece f t) = .panicked ("No piece at " ++ coordsShow f) := by
  simp [boardStep, h]

/-- Witness for `move_from_unoccupied_panics` on the empty board. -/
theorem move_from_unoccupied_panics_witness :
    boardStep sysEmpty (.movePiece ⟨0, 0⟩ ⟨1, 1⟩) =
      .panicked ("No piece at " ++ coordsShow ⟨0, 0⟩) :=
  move_from_unoccupied_panics sysEmpty ⟨0, 0⟩ ⟨1, 1⟩ rfl

/-- Counterexample to claim C3 as stated: in the `bopSetPiece` variants
(chess.go), registering piece 2 while the board already maps A1 to piece 1
does not panic — the coordinator silently overwrites the entry with the
new handle. -/
theorem setPiece_silent_overwrite_cex :
    boardStepSet sysTwoA1 ⟨0, 0⟩ 2 =
      .ok ⟨[(⟨0, 0⟩, 2)], sysTwoA1.actors, 3⟩ [] ["New piece: ♘ on A1"] ∧
    lookupA sysTwoA1.pieces ⟨0, 0⟩ = some 1 := by
  refine ⟨by decide, by decide⟩

/-- Claim C3 amended: only the `bopNewPiece` variant (part_000) treats
registration on an occupied coordinate as a fatal contract violation,
panicking without overwriting; the two `bopSetPiece` variants (chess.go)
perform no occupancy check and silently overwrite the existing entry with
the new handle. -/
theorem occupied_registration_behavior :
    (∀ (sys : System) (c : Coords) (p q : Nat),
      lookupA sys.pieces c = some q →
      boardStep sys (.newPiece c p) =
        .panicked ("A piece already exists on " ++ coordsShow c)) ∧
    (∀ (sys : System) (c : Coords) (p q : Nat) (st : PieceState),
      lookupA sys.actors p = some st →
      lookupA sys.pieces ⟨st.x, st.y⟩ = some q →
      boardStepSet sys c p =
        .ok { sys with pieces := insertA sys.pieces ⟨st.x, st.y⟩ p } []
          ["New piece: " ++ pieceTypeString st.pt ++ " on " ++ coordsShow c] ∧
      lookupA (insertA sys.pieces ⟨st.x, st.y⟩ p) ⟨st.x, st.y⟩ = some p) := by
  constructor
  · intro sys c p q hq
    simp [boardStep, hq]
  · intro sys c p q st hst hq
    exact ⟨by simp [boardStepSet, hst], lookupA_insertA_self _ _ _⟩

/-- Witness for `occupied_registration_behavior`: both halves applied to
  the two-actor system with A1 occupied. -/
theorem occupied_registration_behavior_witness :
    boardStep sysTwoA1 (.newPiece ⟨0, 0⟩ 2) =
      .panicked ("A piece already exists on " ++ coordsShow ⟨0, 0⟩) ∧
    boardStepSet sysTwoA1 ⟨0, 0⟩ 2 =
      .ok { sysTwoA1 with pieces := insertA sysTwoA1.pieces ⟨0, 0⟩ 2 } []
        ["New piece: " ++ pieceTypeString ⟨.knight, .white⟩ ++ " on " ++ coordsShow ⟨0, 0⟩] :=
  ⟨occupied_registration_behavior.1 sysTwoA1 ⟨0, 0⟩ 2 1 rfl,
   (occupied_registration_behavior.2 sysTwoA1 ⟨0, 0⟩ 2 1 ⟨0, 0, none, ⟨.knight, .white⟩⟩
      rfl rfl).1⟩

/-- Claim C4: when `from` holds handle `p` (at a board whose keys are
unique, as every reachable Go map is) and `to` is empty, `bopMovePiece`
removes the `from` entry, installs `to` mapped to the same handle `p`, and
traces the move with the piece's symbol. -/
theorem move_success_updates_map (sys : System) (f t : Coords) (p : Nat)
    (st : PieceState) (hnd : (sys.pieces.map Prod.fst).Nodup)
    (hf : lookupA sys.pieces f = some p)
    (ht : lookupA sys.pieces t = none)
    (hact : lookupA sys.actors p = some st) :
    boardStep sys (.movePiece f t) =
      .ok { sys with pieces := insertA (eraseA sys.pieces f) t p } []
        ["Move: " ++ pieceTypeString st.pt ++ " from " ++ coordsShow f
          ++ " to " ++ coordsShow t] ∧
    lookupA (insertA (eraseA sys.pieces f) t p) f = none ∧
    lookupA (insertA (eraseA sys.pieces f) t p) t = some p := by
  have hft : f ≠ t := fun h => by rw [h, ht] at hf; exact Option.noConfusion hf
  refine ⟨by simp [boardStep, hf, hact], ?_, lookupA_insertA_self _ _ _⟩
  rw [lookupA_insertA_ne _ _ _ _ hft]
  exact lookupA_eraseA_self _ _ hnd

/-- Witness for `move_success_updates_map`: the spec scenario.  A white
  pawn placed at D2, the strings "D2"/"D4" parsed by `parseMoveOp`, and
  the move leaving no entry at D2 and entry 0 at D4, traced "♙". -/
theorem move_success_updates_map_witness :
    addPiece sysEmpty 3 1 ⟨.pawn, .white⟩ = .ok sysD2 ∧
    parseMoveOp "D2" "D4" = .ok ⟨⟨3, 1⟩, ⟨3, 3⟩⟩ ∧
    (boardStep sysD2 (.movePiece ⟨3, 1⟩ ⟨3, 3⟩) =
        .ok { sysD2 with pieces := insertA (eraseA sysD2.pieces ⟨3, 1⟩) ⟨3, 3⟩ 0 } []
          ["Move: ♙ from D2 to D4"] ∧
      lookupA (insertA (eraseA sysD2.pieces ⟨3, 1⟩) ⟨3, 3⟩ 0) ⟨3, 1⟩ = none ∧
      lookupA (insertA (eraseA sysD2.pieces ⟨3, 1⟩) ⟨3, 3⟩ 0) ⟨3, 3⟩ = some 0) :=
  ⟨by decide, by decide,
   move_success_updates_map sysD2 ⟨3, 1⟩ ⟨3, 3⟩ 0 ⟨3, 1, some 0, ⟨.pawn, .white⟩⟩
     (by decide) (by decide) (by decide) (by decide)⟩

/-- Claim C5: any input whose first character lies outside `'A'..'H'` or
whose second character lies outside `'1'..'8'` is rejected by
`coords.Scan` with an error, never a coordinate.  (The guard in the code
is even stricter, also rejecting `'H'`.) -/
theorem scan_error_on_out_of_range (s : String)
    (h : (∃ c cs, s.data = c :: cs ∧ (c < 'A' ∨ 'H' < c)) ∨
         (∃ c1 c2 cs, s.data = c1 :: c2 :: cs ∧ (c2 < '1' ∨ '8' < c2))) :
    ∃ msg, coordsScan s = .error msg := by
  unfold coordsScan
  rcases h with ⟨c, cs, hdata, hc⟩ | ⟨c1, c2, cs, hdata, hc⟩
  · rw [hdata]
    have hguard : c < 'A' ∨ 'G' < c := by
      rcases hc with h1 | h2
      · exact Or.inl h1
      · exact Or.inr (lt_trans (by decide : ('G' : Char) < 'H') h2)
    cases cs with
    | nil =>
      simp only [readRune]
      rw [if_pos]
      · exact ⟨_, rfl⟩
      · exact Or.elim hguard Or.inl (fun h => Or.inr (Or.inl h))
    | cons c2 cs2 =>
      simp only [readRune]
      rw [if_pos]
      · exact ⟨_, rfl⟩
      · exact Or.elim hguard Or.inl (fun h => Or.inr (Or.inl h))
  · rw [hdata]
    simp only [readRune]
    rw [if_pos]
    · exact ⟨_, rfl⟩
    · rcases hc with h1 | h2
      · exact Or.inr (Or.inr (Or.inl h1))
      · exact Or.inr (Or.inr (Or.inr h2))

/-- Witness for `scan_error_on_out_of_range` at the concrete inputs "Z5"
  (first character out of range) and "A9" (second character out of range). -/
theorem scan_error_on_out_of_range_witness :
    (∃ msg, coordsScan "Z5" = .error msg) ∧ (∃ msg, coordsScan "A9" = .error msg) :=
  ⟨scan_error_on_out_of_range "Z5" (Or.inl ⟨'Z', ['5'], rfl, Or.inr (by decide)⟩),
   scan_error_on_out_of_range "A9" (Or.inr ⟨'A', '9', [], rfl, Or.inr (by decide)⟩)⟩

/-- Claim C6: `SetCoordinates(x, y)` always succeeds (no validation),
stores (x, y), and emits a notification exactly when a subscriber is
registered.  Moreover a dropped update is not queued: after an update with
no subscriber, registering a subscriber produces no output at all. -/
theorem setCoords_updates_and_notifies (s : PieceState) (x y : Int) :
    pieceStep s (.setCoords x y) =
      (some { s with x := x, y := y },
       if s.movechan.isSome then [.notify x y] else []) ∧
    (s.movechan = none → ∀ k,
      (pieceRun s [.setCoords x y, .moveCallback (some k)]).2 = []) := by
  constructor
  · cases h : s.movechan <;> simp [pieceStep, h]
  · intro hnone k
    simp [pieceRun, pieceStep, hnone]

/-- Witness for `setCoords_updates_and_notifies`: a fresh actor (which has
  no subscriber) applied to `SetCoordinates(5, 2)`. -/
theorem setCoords_updates_and_notifies_witness :
    pieceStep pieceInit (.setCoords 5 2) =
      (some { pieceInit with x := 5, y := 2 },
       if pieceInit.movechan.isSome then [.notify 5 2] else []) ∧
    (pieceRun pieceInit [.setCoords 5 2, .moveCallback (some 9)]).2 = [] :=
  ⟨(setCoords_updates_and_notifies pieceInit 5 2).1,
   (setCoords_updates_and_notifies pieceInit 5 2).2 rfl 9⟩

/-- Claim C7: `Terminate` closes the ack channel, closes the registered
subscriber channel when there is one, and stops the actor; and it is the
only message in the protocol after which the actor stops. -/
theorem kill_stops_actor :
    (∀ s : PieceState, pieceStep s .kill =
      (none, .killAck :: (if s.movechan.isSome then [.subClosed] else []))) ∧
    (∀ (s : PieceState) (op : Pop), (pieceStep s op).1 = none ↔ op = .kill) := by
  constructor
  · intro s
    cases h : s.movechan <;> simp [pieceStep, h]
  · intro s op
    cases op <;> simp [pieceStep]

/-- Claim C8: `bopGetAllPieces` streams exactly the handles held by the
mapping (the value list, in map order) and then closes the reply channel
(the stream is the complete finite list), each handle once whenever the
held handles are distinct; and after initializing the full starting
position and clearing the board, the enumeration closes without sending
any handle. -/
theorem getAllPieces_enumerates :
    (∀ sys : System,
      boardStep sys .getAllPieces = .ok sys (sys.pieces.map Prod.snd) []) ∧
    (∀ (sys : System) (h : Nat), (sys.pieces.map Prod.snd).Nodup →
      h ∈ sys.pieces.map Prod.snd → (sys.pieces.map Prod.snd).count h = 1) ∧
    initThenClear = .ok ⟨[], [], 32⟩ ∧
    boardStep ⟨[], [], 32⟩ .getAllPieces = .ok ⟨[], [], 32⟩ [] [] := by
  refine ⟨fun sys => rfl, fun sys h hnd hmem => ?_, by decide, by decide⟩
  exact List.count_eq_one_of_mem hnd hmem

/-- Witness for `getAllPieces_enumerates` (its distinctness conjunct) on a
  board holding the single handle 1. -/
theorem getAllPieces_enumerates_witness :
    (sysTwoA1.pieces.map Prod.snd).count 1 = 1 :=
  getAllPieces_enumerates.2.1 sysTwoA1 1 (by decide) (by decide)

/-- Claim C9: starting from a board whose mapping has unique keys, any
sequence of registrations and moves that only moves from occupied squares
and never targets an occupied square keeps the mapping's keys unique
after every step (so at most one handle per coordinate throughout). -/
theorem legal_ops_preserve_unique_keys (ops : List Bop) (sys : System)
    (hnd : (sys.pieces.map Prod.fst).Nodup)
    (hleg : legalOpsB sys ops = true) :
    ∀ (n : Nat) (s1 : System), execOps sys (ops.take n) = some s1 →
      (s1.pieces.map Prod.fst).Nodup := by
  induction ops generalizing sys with
  | nil =>
    intro n s1 hex
    simp [List.take_nil, execOps] at hex
    exact hex ▸ hnd
  | cons op rest ih =>
    intro n s1 hex
    cases n with
    | zero =>
      simp [execOps] at hex
      exact hex ▸ hnd
    | succ m =>
      rw [List.take_succ_cons] at hex
      simp only [legalOpsB, Bool.and_eq_true] at hleg
      obtain ⟨hside, hrest⟩ := hleg
      cases hstep : boardStep sys op with
      | panicked msg => rw [hstep] at hrest; exact absurd hrest (by simp)
      | stuck => rw [hstep] at hrest; exact absurd hrest (by simp)
      | ok s2 enum log =>
        rw [hstep] at hrest
        have hnd2 : (s2.pieces.map Prod.fst).Nodup := by
          cases op with
          | newPiece c ctrl =>
            simp only [Option.isNone_iff_eq_none] at hside
            cases hact : lookupA sys.actors ctrl with
            | none =>
              simp only [boardStep, hside, hact] at hstep
              exact absurd hstep (by simp)
            | some st =>
              simp only [boardStep, hside, hact, StepResult.ok.injEq] at hstep
              rw [← hstep.1]
              exact nodup_keys_insertA _ _ _ hnd
          | movePiece f t =>
            simp only [Bool.and_eq_true, Option.isSome_iff_exists,
              Option.isNone_iff_eq_none] at hside
            obtain ⟨⟨p, hp⟩, hto⟩ := hside
            cases hact : lookupA sys.actors p with
            | none =>
              simp only [boardStep, hp, hact] at hstep
              exact absurd hstep (by simp)
            | some st =>
              simp only [boardStep, hp, hact, StepResult.ok.injEq] at hstep
              rw [← hstep.1]
              exact nodup_keys_insertA _ _ _ (nodup_keys_eraseA _ _ hnd)
          | getAllPieces => exact absurd hside (by simp)
          | delPiece p => exact absurd hside (by simp)
        rw [execOps, hstep] at hex
        exact ih s2 hnd2 hrest m s1 hex

/-- Witness for `legal_ops_preserve_unique_keys`: register actor 0 at A1
  and then move it to B2; after both steps the key list [B2] is unique. -/
theorem legal_ops_preserve_unique_keys_witness :
    ((⟨[(⟨1, 1⟩, 0)], [(0, ⟨0, 0, some 0, ⟨.pawn, .white⟩⟩)], 1⟩ :
        System).pieces.map Prod.fst).Nodup :=
  legal_ops_preserve_unique_keys
    [.newPiece ⟨0, 0⟩ 0, .movePiece ⟨0, 0⟩ ⟨1, 1⟩]
    ⟨[], [(0, ⟨0, 0, some 0, ⟨.pawn, .white⟩⟩)], 1⟩
    (by decide) (by decide) 2
    ⟨[(⟨1, 1⟩, 0)], [(0, ⟨0, 0, some 0, ⟨.pawn, .white⟩⟩)], 1⟩ (by decide)

/-- Claim C10: `bopMovePiece` sends the moved piece only the `popGetType`
query, so the actor map is untouched and the piece still stores its
pre-move coordinate `f`: a `popGetCoords` reply still carries `f`.  A
subsequent `bopDelPiece` therefore deletes the key the piece reports —
`f`, which differs from the piece's actual map key `t` — leaving the
mapping unchanged, with the entry at `t` still pointing at the now dead
actor. -/
theorem move_leaves_actor_coords_stale (sys : System) (f t : Coords)
    (p : Nat) (st : PieceState)
    (hnd : (sys.pieces.map Prod.fst).Nodup)
    (hf : lookupA sys.pieces f = some p)
    (hst : lookupA sys.actors p = some st)
    (hxy : (⟨st.x, st.y⟩ : Coords) = f)
    (hft : f ≠ t) :
    ∃ sys1 log1, boardStep sys (.movePiece f t) = .ok sys1 [] log1 ∧
      sys1.actors = sys.actors ∧
      pieceStep st .getCoords = (some st, [.coordsReply st.x st.y]) ∧
      lookupA sys1.pieces t = some p ∧
      ∃ sys2, boardStep sys1 (.delPiece p) =
          .ok sys2 [] ["Deleted piece from " ++ coordsShow f] ∧
        sys2.pieces = sys1.pieces ∧
        lookupA sys2.pieces t = some p := by
  refine ⟨{ sys with pieces := insertA (eraseA sys.pieces f) t p },
    ["Move: " ++ pieceTypeString st.pt ++ " from " ++ coordsShow f
      ++ " to " ++ coordsShow t],
    by simp [boardStep, hf, hst], rfl, rfl, lookupA_insertA_self _ _ _, ?_⟩
  have hnone : lookupA (insertA (eraseA sys.pieces f) t p) f = none := by
    rw [lookupA_insertA_ne _ _ _ _ hft]
    exact lookupA_eraseA_self _ _ hnd
  have herase :
      eraseA (insertA (eraseA sys.pieces f) t p) f =
        insertA (eraseA sys.pieces f) t p :=
    eraseA_of_not_mem _ _ (not_mem_keys_of_lookupA_eq_none _ _ hnone)
  refine ⟨{ pieces := insertA (eraseA sys.pieces f) t p,
            actors := eraseA sys.actors p, nextId := sys.nextId }, ?_, rfl,
    lookupA_insertA_self _ _ _⟩
  simp only [boardStep, hst, hxy, herase]

/-- Witness for `move_leaves_actor_coords_stale`: the D2 pawn system moved
  D2 to D4 and then deleted; the D4 entry survives the deletion. -/
theorem move_leaves_actor_coords_stale_witness :
    ∃ sys1 log1, boardStep sysD2 (.movePiece ⟨3, 1⟩ ⟨3, 3⟩) = .ok sys1 [] log1 ∧
      sys1.actors = sysD2.actors ∧
      pieceStep ⟨3, 1, some 0, ⟨.pawn, .white⟩⟩ .getCoords =
        (some ⟨3, 1, some 0, ⟨.pawn, .white⟩⟩, [.coordsReply 3 1]) ∧
      lookupA sys1.pieces ⟨3, 3⟩ = some 0 ∧
      ∃ sys2, boardStep sys1 (.delPiece 0) =
          .ok sys2 [] ["Deleted piece from " ++ coordsShow ⟨3, 1⟩] ∧
        sys2.pieces = sys1.pieces ∧
        lookupA sys2.pieces ⟨3, 3⟩ = some 0 :=
  move_leaves_actor_coords_stale sysD2 ⟨3, 1⟩ ⟨3, 3⟩ 0
    ⟨3, 1, some 0, ⟨.pawn, .white⟩⟩ (by decide) (by decide) (by decide)
    (by decide) (by decide)
